import Mathlib

/-!
Shallow embedding of the `particeps` upload library (src/particeps/particeps.go).

Modelling conventions:
- Go strings are modelled by Lean `String`; indices are character positions
  (the source only uses ASCII markers, where byte and character indices agree).
- A Go call returning `(value, error)` is modelled by `GoResult`, which also
  has explicit constructors for a runtime panic (e.g. slice index out of
  range) and for `log.Fatalln` (process exit).
- The ambient effects of one call (file system, HTTP transport, JSON
  decoding of the received body) are packaged in an `Env` record: each field
  is the outcome the corresponding Go library call produces during the call.
- float64 arithmetic in `round`/`prettySize` is modelled by exact rational
  arithmetic (the idealisation the spec itself uses when it states the
  formatter property "within the stated rounding precision").
-/

namespace Particeps

/-- Models a Go `error` value by its message string. -/
abbrev GoError := String

/-- UniversalResponse struct: normalized upload outcome.
Modelled from the spec: the struct declaration is not under src/, but every
field (Status, FullURL, ShortURL) is fixed by its uses in particeps.go and
by the spec's UploadResult data model. -/
structure UniversalResponse where
  Status : Bool
  FullURL : String
  ShortURL : String
deriving DecidableEq, Repr

/-- Inner url object of the AnonFiles/BayFiles JSON response.
Modelled from the spec: response shape
status/data/file/url with full and short fields. -/
structure AFURL where
  Full : String
  Short : String
deriving DecidableEq, Repr

/-- Inner file object of the AnonFiles/BayFiles JSON response. -/
structure AFFile where
  URL : AFURL
deriving DecidableEq, Repr

/-- Inner data object of the AnonFiles/BayFiles JSON response. -/
structure AFData where
  File : AFFile
deriving DecidableEq, Repr

/-- AnonFilesSuccess struct: decoded AnonFiles/BayFiles JSON response.
Modelled from the spec: the struct declaration is not under src/; the shape
is fixed by its uses in uploadFile and the spec's schema
status plus data.file.url.full and data.file.url.short. -/
structure AnonFilesSuccess where
  Status : Bool
  Data : AFData
deriving DecidableEq, Repr

/-- One element of the Filebin links sequence. -/
structure FBLink where
  Href : String
deriving DecidableEq, Repr

/-- FilebinSuccess struct: decoded Filebin JSON response.
Modelled from the spec: the struct declaration is not under src/; the spec
gives the shape as a links sequence of objects with an href string, i.e. a
variable-length list (a Go slice). -/
structure FilebinSuccess where
  Links : List FBLink
deriving DecidableEq, Repr

/-- One part of a multipart form body, as produced by
`multipart.Writer.CreateFormFile(fieldname, filename)` followed by copying
the file contents into the part writer. -/
structure Part where
  fieldName : String
  fileName : String
  content : String
deriving DecidableEq, Repr

/-- An outbound HTTP request as the library constructs it. For multipart
requests `parts` is the form body (the random boundary parameter of the
content type is elided); for the raw-body Filebin request `rawBody` holds
the posted bytes and `headers` the explicitly set headers. -/
structure HttpRequest where
  method : String
  url : String
  contentType : String
  parts : List Part
  rawBody : String
  headers : List (String × String)
deriving DecidableEq, Repr

/-- Outcome of a Go function returning `(α, error)`: a normal return carries
the value and the (possibly nil) error; a runtime panic and `log.Fatalln`
never return. -/
inductive GoResult (α : Type) where
  | ret : α → Option GoError → GoResult α
  | panic : String → GoResult α
  | fatal : String → GoResult α
deriving DecidableEq, Repr

/-- Result of one upload call: the request that was handed to the HTTP
client (none if the call failed before sending) and the Go-level outcome. -/
structure UploadTrace where
  sent : Option HttpRequest
  result : GoResult UniversalResponse
deriving DecidableEq, Repr

/-- Ambient outcomes of the external calls made during one library call:
`fs` is what `os.Open` + reading the file yields for a path (error when the
path cannot be opened); `createFormFileError`, `newRequestError`,
`postError`, `readError` are the error results of the correspondingly named
library calls (`none` = success); `body` is the response body obtained when
post and read succeed; `anonDecode` / `filebinDecode` are the outcomes of
`json.Unmarshal` on that body against the respective struct. -/
structure Env where
  fs : String → Except GoError String
  createFormFileError : Option GoError
  newRequestError : Option GoError
  postError : Option GoError
  readError : Option GoError
  body : String
  anonDecode : Except GoError AnonFilesSuccess
  filebinDecode : Except GoError FilebinSuccess

/-- Tests whether `w` occurs at the head of `v` (list-of-chars version of a
substring occurrence test; `w` is the first argument). -/
def startsWithL : List Char → List Char → Bool
  | [], _ => true
  | _ :: _, [] => false
  | w :: ws, v :: vs => w = v && startsWithL ws (vs : List Char)

/-- Scans positions `i, i-1, ..., 0` and returns the greatest position at
which `w` occurs in `v`, if any. -/
def lastIndexFrom (v w : List Char) : Nat → Option Nat
  | 0 => if startsWithL w v then some 0 else none
  | i + 1 =>
    if startsWithL w (v.drop (i + 1)) then some (i + 1) else lastIndexFrom v w i

/-- Models `strings.LastIndex(value, word)`: the index of the last
occurrence of `word` in `value` (`none` models the Go result -1). -/
def stringsLastIndex (value word : List Char) : Option Nat :=
  lastIndexFrom value word value.length

/-- Embeds `getStringAfterWord` (particeps.go lines 77-87): the substring of
`value` after the last occurrence of `word`, empty when `word` is absent or
nothing follows it. -/
def getStringAfterWord (value word : String) : String :=
  match stringsLastIndex value.toList word.toList with
  | none => ""
  | some pos =>
    let adjustedPos := pos + word.toList.length
    if value.toList.length ≤ adjustedPos then ""
    else String.mk (value.toList.drop adjustedPos)

/-- Models `filepath.Base` on slash-separated paths: the last path element
after stripping trailing slashes; "." for the empty path, "/" for a path of
only slashes. -/
def goFilepathBase (path : String) : String :=
  if path = "" then "."
  else
    let r := path.toList.reverse.dropWhile (fun c => c = '/')
    if r = [] then "/"
    else String.mk ((r.takeWhile (fun c => c ≠ '/')).reverse)

/-- Models `math.Modf`: splits into an integer part truncated toward zero
and a fractional part with the same sign as the input. -/
def goModf (x : ℚ) : ℤ × ℚ :=
  let i : ℤ := if 0 ≤ x then ⌊x⌋ else ⌈x⌉
  (i, x - (i : ℚ))

/-- Embeds `round` (particeps.go lines 204-216) in exact arithmetic: scale
by 10^places, take the Modf fractional part, ceiling when it reaches the
threshold and floor otherwise, rescale. -/
def round (val roundOn : ℚ) (places : ℕ) : ℚ :=
  let pow : ℚ := 10 ^ places
  let digit : ℚ := pow * val
  let div : ℚ := (goModf digit).2
  let r : ℤ := if roundOn ≤ div then ⌈digit⌉ else ⌊digit⌋
  (r : ℚ) / pow

/-- The suffix table of `prettySize`. -/
def suffixes : List String := ["B", "KB", "MB", "GB"]

/-- Renders a nonnegative rational whose double is a multiple of 1/100 the
way `strconv.FormatFloat(_, 'f', -1, 64)` renders the corresponding exactly
represented value: shortest decimal form, no trailing zeros. -/
def formatSize2 (q : ℚ) : String :=
  let n : ℤ := ⌊q * 100⌋
  let u : ℤ := n / 100
  let c : ℕ := (n % 100).toNat
  if c = 0 then toString u
  else if c % 10 = 0 then toString u ++ "." ++ toString (c / 10)
  else if c < 10 then toString u ++ ".0" ++ toString c
  else toString u ++ "." ++ toString c

/-- Embeds `prettySize` (particeps.go lines 218-224) in exact arithmetic.
In the source, `base = log(b)/log(1024)` and the unit index is
`int(floor(base))`; for b ≥ 1 that floor is `Nat.log 1024 b`, and
`1024^(base - floor base)` is exactly `b / 1024^k`. For b = 0 the source
computes `log 0 = -infinity`, whose conversion to an int indexes the 4-entry
suffix table out of range, a runtime panic; an index ≥ 4 (b ≥ 1024^4)
likewise panics. Both are modelled as `Except.error`. -/
def prettySize (sizeInBytes : ℕ) : Except String String :=
  if sizeInBytes = 0 then Except.error "runtime error: index out of range"
  else
    let k := Nat.log 1024 sizeInBytes
    if k < 4 then
      Except.ok
        (formatSize2 (round ((sizeInBytes : ℚ) / 1024 ^ k) (1 / 2) 2) ++ " "
          ++ suffixes.getD k "")
    else Except.error "runtime error: index out of range"

/-- Embeds `CheckFile` (particeps.go lines 33-40): stat the path (modelled
by `stat`, giving the file size or an error), return `("", err)` on stat
failure and otherwise the pretty-printed size (a panic of `prettySize`
propagates). The diagnostic written to stderr is not modelled. -/
def CheckFile (stat : String → Except GoError ℕ) (filename : String) :
    GoResult String :=
  match stat filename with
  | Except.error e => GoResult.ret "" (some e)
  | Except.ok n =>
    match prettySize n with
    | Except.ok s => GoResult.ret s none
    | Except.error m => GoResult.panic m

/-- The multipart request the dispatcher builds: one form file part with
field name "file", part file name exactly the `filename` argument passed to
`CreateFormFile`, and the copied file contents. -/
def multipartRequest (destURI filename content : String) : HttpRequest :=
  { method := "POST"
    url := destURI
    contentType := "multipart/form-data"
    parts := [⟨"file", filename, content⟩]
    rawBody := ""
    headers := [] }

/-- Embeds `uploadFile` (particeps.go lines 90-128), the shared
AnonFiles/BayFiles dispatcher. Faithful details: a `CreateFormFile` error
hits `log.Fatalln`; the `os.Open` error is captured but never checked, and
the `io.Copy` error is discarded, so an unreadable file contributes an empty
part and the upload proceeds; on a successful decode, Status/FullURL/ShortURL
are copied verbatim from the decoded JSON. -/
def uploadFile (env : Env) (filename destURI : String) : UploadTrace :=
  let returnValue : UniversalResponse := ⟨false, "", ""⟩
  match env.createFormFileError with
  | some e => ⟨none, GoResult.fatal e⟩
  | none =>
    let content := match env.fs filename with
      | Except.ok c => c
      | Except.error _ => ""
    let req := multipartRequest destURI filename content
    match env.postError with
    | some e => ⟨some req, GoResult.ret returnValue (some e)⟩
    | none =>
      match env.readError with
      | some e => ⟨some req, GoResult.ret returnValue (some e)⟩
      | none =>
        match env.anonDecode with
        | Except.error e => ⟨some req, GoResult.ret returnValue (some e)⟩
        | Except.ok s =>
          ⟨some req,
            GoResult.ret ⟨s.Status, s.Data.File.URL.Full, s.Data.File.URL.Short⟩ none⟩

/-- Embeds `AnonFilesUpload` (particeps.go lines 200-202). -/
def AnonFilesUpload (env : Env) (filename : String) : UploadTrace :=
  uploadFile env filename "https://api.anonfiles.com/upload"

/-- Embeds `BayFilesUpload` (particeps.go lines 195-197). -/
def BayFilesUpload (env : Env) (filename : String) : UploadTrace :=
  uploadFile env filename "https://api.bayfiles.com/upload"

/-- Embeds `ImagebinUpload` (particeps.go lines 43-75). As in `uploadFile`,
the `os.Open` and `io.Copy` errors are discarded; a `CreateFormFile` error
is returned (not fatal); after reading the body, the full URL is scraped
with `getStringAfterWord` and Status is set to true only when it is
non-empty. -/
def ImagebinUpload (env : Env) (filename : String) : UploadTrace :=
  let result : UniversalResponse := ⟨false, "", ""⟩
  match env.createFormFileError with
  | some e => ⟨none, GoResult.ret result (some e)⟩
  | none =>
    let content := match env.fs filename with
      | Except.ok c => c
      | Except.error _ => ""
    let req := multipartRequest "https://imagebin.ca/upload.php" filename content
    match env.postError with
    | some e => ⟨some req, GoResult.ret result (some e)⟩
    | none =>
      match env.readError with
      | some e => ⟨some req, GoResult.ret result (some e)⟩
      | none =>
        let full := getStringAfterWord env.body "url:"
        if full = "" then ⟨some req, GoResult.ret ⟨false, "", ""⟩ none⟩
        else ⟨some req, GoResult.ret ⟨true, full, ""⟩ none⟩

/-- Embeds `FilebinUpload` (particeps.go lines 157-192). Faithful details:
the `os.Open` error IS checked here; the request posts the raw file bytes
with a Filename header carrying the base name and a form-urlencoded content
type; after a successful decode the source reads `Links[1]` unconditionally,
which panics when the decoded links list has fewer than two elements. -/
def FilebinUpload (env : Env) (filename : String) : UploadTrace :=
  let returnValue : UniversalResponse := ⟨false, "", ""⟩
  match env.fs filename with
  | Except.error e => ⟨none, GoResult.ret returnValue (some e)⟩
  | Except.ok content =>
    match env.newRequestError with
    | some e => ⟨none, GoResult.ret returnValue (some e)⟩
    | none =>
      let req : HttpRequest :=
        { method := "POST"
          url := "https://filebin.net"
          contentType := "application/x-www-form-urlencoded"
          parts := []
          rawBody := content
          headers := [("Filename", goFilepathBase filename)] }
      match env.postError with
      | some e => ⟨some req, GoResult.ret returnValue (some e)⟩
      | none =>
        match env.readError with
        | some e => ⟨some req, GoResult.ret returnValue (some e)⟩
        | none =>
          match env.filebinDecode with
          | Except.error e => ⟨some req, GoResult.ret returnValue (some e)⟩
          | Except.ok s =>
            match s.Links[1]? with
            | none => ⟨some req, GoResult.panic "runtime error: index out of range"⟩
            | some l =>
              if l.Href = "" then ⟨some req, GoResult.ret returnValue none⟩
              else ⟨some req, GoResult.ret ⟨true, l.Href, ""⟩ none⟩

/-! ### Error-path lemmas: on a non-nil error the zero response is returned -/

/-- On any return of `uploadFile` with a non-nil error, the accompanying
response is the zero value. -/
theorem uploadFile_error_zero (env : Env) (f u : String)
    (r : UniversalResponse) (e : GoError)
    (h : (uploadFile env f u).result = GoResult.ret r (some e)) :
    r = ⟨false, "", ""⟩ := by
  obtain ⟨fs, cf, nr, pe, re, bd, ad, fd⟩ := env
  cases cf <;> cases pe <;> cases re <;> cases ad <;>
    simp_all [uploadFile]

/-- On any return of `FilebinUpload` with a non-nil error, the accompanying
response is the zero value. -/
theorem FilebinUpload_error_zero (env : Env) (f : String)
    (r : UniversalResponse) (e : GoError)
    (h : (FilebinUpload env f).result = GoResult.ret r (some e)) :
    r = ⟨false, "", ""⟩ := by
  obtain ⟨fs, cf, nr, pe, re, bd, ad, fd⟩ := env
  rcases hfs : fs f with e1 | c <;> cases nr <;> cases pe <;> cases re <;>
      cases fd <;> simp_all [FilebinUpload]
  rename_i s
  rcases hsnd : s.Links[1]? with _ | l
  · simp_all
  · by_cases hhref : l.Href = "" <;> simp_all

/-- On any return of `ImagebinUpload` with a non-nil error, the accompanying
response is the zero value. -/
theorem ImagebinUpload_error_zero (env : Env) (f : String)
    (r : UniversalResponse) (e : GoError)
    (h : (ImagebinUpload env f).result = GoResult.ret r (some e)) :
    r = ⟨false, "", ""⟩ := by
  obtain ⟨fs, cf, nr, pe, re, bd, ad, fd⟩ := env
  cases cf <;> cases pe <;> cases re <;> simp_all [ImagebinUpload]
  by_cases hfull : getStringAfterWord bd "url:" = "" <;> simp_all

/-- Claim C9: whenever any upload entry point (uploadFile, AnonFilesUpload,
BayFilesUpload, FilebinUpload, ImagebinUpload) returns a non-nil error, the
UniversalResponse returned alongside it is the zero result: Status = false,
FullURL = "", ShortURL = ""; no partially filled result escapes on the error
path. -/
theorem claim_C9_error_returns_zero_response :
    (∀ env f u r e, (uploadFile env f u).result = GoResult.ret r (some e) →
      r = ⟨false, "", ""⟩) ∧
    (∀ env f r e, (AnonFilesUpload env f).result = GoResult.ret r (some e) →
      r = ⟨false, "", ""⟩) ∧
    (∀ env f r e, (BayFilesUpload env f).result = GoResult.ret r (some e) →
      r = ⟨false, "", ""⟩) ∧
    (∀ env f r e, (FilebinUpload env f).result = GoResult.ret r (some e) →
      r = ⟨false, "", ""⟩) ∧
    (∀ env f r e, (ImagebinUpload env f).result = GoResult.ret r (some e) →
      r = ⟨false, "", ""⟩) :=
  ⟨fun env f u r e h => uploadFile_error_zero env f u r e h,
   fun env f r e h => uploadFile_error_zero env f _ r e h,
   fun env f r e h => uploadFile_error_zero env f _ r e h,
   fun env f r e h => FilebinUpload_error_zero env f r e h,
   fun env f r e h => ImagebinUpload_error_zero env f r e h⟩

/-- Environment for the C9 witness: the HTTP POST fails, everything before
it succeeds. -/
def envC9 : Env :=
  { fs := fun _ => Except.ok "data"
    createFormFileError := none
    newRequestError := none
    postError := some "dial tcp: network unreachable"
    readError := none
    body := ""
    anonDecode := Except.error "unused"
    filebinDecode := Except.error "unused" }

/-- Witness for claim C9: with a failing transport, each upload function
returns the zero response together with the network error, and the claim
theorem applies to those returns. -/
theorem claim_C9_witness :
    ((uploadFile envC9 "f.txt" "https://api.anonfiles.com/upload").result =
      GoResult.ret ⟨false, "", ""⟩ (some "dial tcp: network unreachable") ∧
      (⟨false, "", ""⟩ : UniversalResponse) = ⟨false, "", ""⟩) ∧
    ((FilebinUpload envC9 "f.txt").result =
      GoResult.ret ⟨false, "", ""⟩ (some "dial tcp: network unreachable") ∧
      (⟨false, "", ""⟩ : UniversalResponse) = ⟨false, "", ""⟩) ∧
    ((ImagebinUpload envC9 "f.txt").result =
      GoResult.ret ⟨false, "", ""⟩ (some "dial tcp: network unreachable") ∧
      (⟨false, "", ""⟩ : UniversalResponse) = ⟨false, "", ""⟩) :=
  ⟨⟨rfl, claim_C9_error_returns_zero_response.1 envC9 "f.txt"
      "https://api.anonfiles.com/upload" ⟨false, "", ""⟩
      "dial tcp: network unreachable" rfl⟩,
   ⟨rfl, claim_C9_error_returns_zero_response.2.2.2.1 envC9 "f.txt"
      ⟨false, "", ""⟩ "dial tcp: network unreachable" rfl⟩,
   ⟨rfl, claim_C9_error_returns_zero_response.2.2.2.2 envC9 "f.txt"
      ⟨false, "", ""⟩ "dial tcp: network unreachable" rfl⟩⟩

/-- Claim C10: when the decoded Filebin response has at least two links and
the second link's href is the empty string, FilebinUpload returns
Status = false, FullURL = "" and a nil error: an empty second href is a
normal no-URL outcome, not a decode error. -/
theorem claim_C10_empty_second_href (env : Env) (filename : String)
    (s : FilebinSuccess) (l : FBLink) (c : String)
    (hfs : env.fs filename = Except.ok c)
    (hreq : env.newRequestError = none)
    (hpost : env.postError = none)
    (hread : env.readError = none)
    (hdec : env.filebinDecode = Except.ok s)
    (hsnd : s.Links[1]? = some l)
    (hhref : l.Href = "") :
    (FilebinUpload env filename).result = GoResult.ret ⟨false, "", ""⟩ none := by
  simp [FilebinUpload, hfs, hreq, hpost, hread, hdec, hsnd, hhref]

/-- Environment for the C10 witness: decode yields two links, the second
with an empty href. -/
def envC10 : Env :=
  { fs := fun _ => Except.ok "data"
    createFormFileError := none
    newRequestError := none
    postError := none
    readError := none
    body := ""
    anonDecode := Except.error "unused"
    filebinDecode := Except.ok ⟨[⟨"https://filebin.net/archive"⟩, ⟨""⟩]⟩ }

/-- Witness for claim C10 at a concrete two-link response whose second href
is empty. -/
theorem claim_C10_witness :
    envC10.fs "f.txt" = Except.ok "data" ∧
    envC10.filebinDecode =
      Except.ok ⟨[⟨"https://filebin.net/archive"⟩, ⟨""⟩]⟩ ∧
    (FilebinUpload envC10 "f.txt").result = GoResult.ret ⟨false, "", ""⟩ none :=
  ⟨rfl, rfl,
   claim_C10_empty_second_href envC10 "f.txt"
     ⟨[⟨"https://filebin.net/archive"⟩, ⟨""⟩]⟩ ⟨""⟩ "data"
     rfl rfl rfl rfl rfl rfl rfl⟩

/-- Environment for claim C2: decode succeeds with an empty links list
(e.g. response body with a links field holding an empty array). -/
def envC2 : Env :=
  { fs := fun _ => Except.ok "data"
    createFormFileError := none
    newRequestError := none
    postError := none
    readError := none
    body := ""
    anonDecode := Except.error "unused"
    filebinDecode := Except.ok ⟨[]⟩ }

/-- Environment for claim C2, second case: decode succeeds with exactly one
link. -/
def envC2one : Env :=
  { fs := fun _ => Except.ok "data"
    createFormFileError := none
    newRequestError := none
    postError := none
    readError := none
    body := ""
    anonDecode := Except.error "unused"
    filebinDecode := Except.ok ⟨[⟨"https://filebin.net/a"⟩]⟩ }

/-- Claim C2 (code bug): on a decoded Filebin response with fewer than two
links the source reads Links index 1 unconditionally, so the call panics
with an index-out-of-range runtime error instead of returning a
decode/parse failure as an error value. Shown for zero links and for one
link. -/
theorem claim_C2_short_links_panics :
    (FilebinUpload envC2 "f.txt").result =
      GoResult.panic "runtime error: index out of range" ∧
    (FilebinUpload envC2one "f.txt").result =
      GoResult.panic "runtime error: index out of range" :=
  ⟨rfl, rfl⟩

/-- Environment for claim C3: the path cannot be opened (`os.Open` fails);
transport and decoding then behave normally for the (empty) upload. -/
def envC3 : Env :=
  { fs := fun _ => Except.error "open missing.txt: no such file or directory"
    createFormFileError := none
    newRequestError := none
    postError := none
    readError := none
    body := "response text"
    anonDecode :=
      Except.ok ⟨true, ⟨⟨⟨"https://anonfiles.com/x", "https://afiles.io/x"⟩⟩⟩⟩
    filebinDecode := Except.error "unused" }

/-- Claim C3 (code bug): with an unreadable path, the source of `uploadFile`
and `ImagebinUpload` captures the `os.Open` error but never checks it (and
discards the `io.Copy` error), so instead of failing with a FileOpenError
the upload proceeds: a multipart request with an empty file part is sent
and the provider's response is returned with a nil error. -/
theorem claim_C3_open_error_ignored :
    (uploadFile envC3 "missing.txt" "https://api.anonfiles.com/upload").sent =
      some (multipartRequest "https://api.anonfiles.com/upload" "missing.txt" "") ∧
    (uploadFile envC3 "missing.txt" "https://api.anonfiles.com/upload").result =
      GoResult.ret ⟨true, "https://anonfiles.com/x", "https://afiles.io/x"⟩ none ∧
    (ImagebinUpload envC3 "missing.txt").sent =
      some (multipartRequest "https://imagebin.ca/upload.php" "missing.txt" "") ∧
    (ImagebinUpload envC3 "missing.txt").result =
      GoResult.ret ⟨false, "", ""⟩ none :=
  ⟨rfl, rfl, rfl, rfl⟩

/-! ### Claim C1: linkage between Status and FullURL on the nil-error path -/

/-- On a nil-error return of `FilebinUpload`, Status is true exactly when
FullURL is non-empty. -/
theorem FilebinUpload_ok_status_iff (env : Env) (f : String)
    (r : UniversalResponse)
    (h : (FilebinUpload env f).result = GoResult.ret r none) :
    r.Status = true ↔ r.FullURL ≠ "" := by
  obtain ⟨fs, cf, nr, pe, re, bd, ad, fd⟩ := env
  rcases hfs : fs f with e1 | c <;> cases nr <;> cases pe <;> cases re <;>
      cases fd <;> simp_all [FilebinUpload]
  rename_i s
  rcases hsnd : s.Links[1]? with _ | l
  · simp_all
  · by_cases hhref : l.Href = "" <;> simp_all <;> subst h <;> simp_all

/-- On a nil-error return of `ImagebinUpload`, Status is true exactly when
FullURL is non-empty. -/
theorem ImagebinUpload_ok_status_iff (env : Env) (f : String)
    (r : UniversalResponse)
    (h : (ImagebinUpload env f).result = GoResult.ret r none) :
    r.Status = true ↔ r.FullURL ≠ "" := by
  obtain ⟨fs, cf, nr, pe, re, bd, ad, fd⟩ := env
  cases cf <;> cases pe <;> cases re <;> simp_all [ImagebinUpload]
  by_cases hfull : getStringAfterWord bd "url:" = "" <;> simp_all <;>
    subst h <;> simp_all

/-- On a nil-error return of `uploadFile`, Status, FullURL and ShortURL are
copied verbatim from the decoded JSON, with no linkage between them. -/
theorem uploadFile_ok_copies_decode (env : Env) (f u : String)
    (s : AnonFilesSuccess)
    (hc : env.createFormFileError = none) (hp : env.postError = none)
    (hr : env.readError = none) (hd : env.anonDecode = Except.ok s) :
    (uploadFile env f u).result =
      GoResult.ret ⟨s.Status, s.Data.File.URL.Full, s.Data.File.URL.Short⟩ none := by
  simp [uploadFile, hc, hp, hr, hd]

/-- Environment for the C1 counterexample: the provider's JSON decodes with
status true but an empty full URL. -/
def envC1 : Env :=
  { fs := fun _ => Except.ok "data"
    createFormFileError := none
    newRequestError := none
    postError := none
    readError := none
    body := ""
    anonDecode := Except.ok ⟨true, ⟨⟨⟨"", ""⟩⟩⟩⟩
    filebinDecode := Except.error "unused" }

/-- Claim C1 counterexample: AnonFilesUpload can return, with a nil error, a
response whose Status is true while FullURL is empty (the JSON said
status true with an empty full url), so Status = true is not equivalent to
FullURL being non-empty for the AnonFiles/BayFiles entry points. -/
theorem claim_C1_counterexample :
    (AnonFilesUpload envC1 "f.txt").result = GoResult.ret ⟨true, "", ""⟩ none ∧
    ¬(((⟨true, "", ""⟩ : UniversalResponse).Status = true) ↔
      (⟨true, "", ""⟩ : UniversalResponse).FullURL ≠ "") :=
  ⟨rfl, by decide⟩

/-- Claim C1 (amended): on a nil-error return, Status = true if and only if
FullURL is non-empty for FilebinUpload and ImagebinUpload; for the
AnonFiles/BayFiles dispatcher `uploadFile` the returned Status and URLs are
instead copied verbatim from the decoded JSON response, with no linkage
between Status and FullURL. -/
theorem claim_C1_status_full_url :
    (∀ env f r, (FilebinUpload env f).result = GoResult.ret r none →
      (r.Status = true ↔ r.FullURL ≠ "")) ∧
    (∀ env f r, (ImagebinUpload env f).result = GoResult.ret r none →
      (r.Status = true ↔ r.FullURL ≠ "")) ∧
    (∀ env f u s, env.createFormFileError = none → env.postError = none →
      env.readError = none → env.anonDecode = Except.ok s →
      (uploadFile env f u).result =
        GoResult.ret ⟨s.Status, s.Data.File.URL.Full, s.Data.File.URL.Short⟩ none) :=
  ⟨fun env f r h => FilebinUpload_ok_status_iff env f r h,
   fun env f r h => ImagebinUpload_ok_status_iff env f r h,
   fun env f u s hc hp hr hd => uploadFile_ok_copies_decode env f u s hc hp hr hd⟩

/-- Environment for the C1 witness: Filebin decodes to two links with a
non-empty second href. -/
def envC1w : Env :=
  { fs := fun _ => Except.ok "data"
    createFormFileError := none
    newRequestError := none
    postError := none
    readError := none
    body := ""
    anonDecode := Except.error "unused"
    filebinDecode := Except.ok ⟨[⟨"https://filebin.net/a"⟩, ⟨"https://filebin.net/x"⟩]⟩ }

/-- Witness for claim C1 at a concrete successful Filebin upload. -/
theorem claim_C1_witness :
    (FilebinUpload envC1w "f.txt").result =
      GoResult.ret ⟨true, "https://filebin.net/x", ""⟩ none ∧
    ((⟨true, "https://filebin.net/x", ""⟩ : UniversalResponse).Status = true ↔
      (⟨true, "https://filebin.net/x", ""⟩ : UniversalResponse).FullURL ≠ "") :=
  ⟨rfl, claim_C1_status_full_url.1 envC1w "f.txt" ⟨true, "https://filebin.net/x", ""⟩ rfl⟩

/-! ### Claim C6: the multipart request the dispatcher constructs -/

/-- The multipart request `uploadFile` hands to the HTTP client: one form
file part with field name "file", the filename as passed, and the file's
contents; sent whatever the transport outcome is. -/
theorem uploadFile_sent (env : Env) (filename destURI c : String)
    (hc : env.createFormFileError = none)
    (hfs : env.fs filename = Except.ok c) :
    (uploadFile env filename destURI).sent =
      some (multipartRequest destURI filename c) := by
  obtain ⟨fs, cf, nr, pe, re, bd, ad, fd⟩ := env
  subst hc
  cases pe <;> cases re <;> cases ad <;> simp_all [uploadFile]

/-- The multipart request `ImagebinUpload` hands to the HTTP client. -/
theorem ImagebinUpload_sent (env : Env) (filename c : String)
    (hc : env.createFormFileError = none)
    (hfs : env.fs filename = Except.ok c) :
    (ImagebinUpload env filename).sent =
      some (multipartRequest "https://imagebin.ca/upload.php" filename c) := by
  obtain ⟨fs, cf, nr, pe, re, bd, ad, fd⟩ := env
  subst hc
  cases pe <;> cases re <;> simp_all [ImagebinUpload]
  by_cases hfull : getStringAfterWord bd "url:" = "" <;> simp [hfull]

/-- Environment for the C6 counterexample: the file at "dir/f.txt" opens
with contents "data". -/
def envC6 : Env :=
  { fs := fun _ => Except.ok "data"
    createFormFileError := none
    newRequestError := none
    postError := none
    readError := none
    body := ""
    anonDecode := Except.error "decode error"
    filebinDecode := Except.error "unused" }

/-- Claim C6 counterexample: for the path "dir/f.txt" the constructed part
carries the full path as its file name, not the base name "f.txt": the
source passes `filename` unchanged to `CreateFormFile`. -/
theorem claim_C6_counterexample :
    (uploadFile envC6 "dir/f.txt" "https://api.anonfiles.com/upload").sent =
      some
        { method := "POST"
          url := "https://api.anonfiles.com/upload"
          contentType := "multipart/form-data"
          parts := [⟨"file", "dir/f.txt", "data"⟩]
          rawBody := ""
          headers := [] } ∧
    goFilepathBase "dir/f.txt" = "f.txt" ∧
    ("dir/f.txt" : String) ≠ "f.txt" :=
  ⟨rfl, rfl, by decide⟩

/-- Claim C6 (amended): for every readable local file path and destination
URL, the multipart dispatcher (`uploadFile`, and likewise `ImagebinUpload`)
constructs a multipart form body with a single file field named "file"
whose part carries the file's bytes and the filename string as passed (the
full path, not its base name), and POSTs it with the multipart
content type. -/
theorem claim_C6_multipart_request (env : Env) (filename destURI c : String)
    (hc : env.createFormFileError = none)
    (hfs : env.fs filename = Except.ok c) :
    (uploadFile env filename destURI).sent =
      some
        { method := "POST"
          url := destURI
          contentType := "multipart/form-data"
          parts := [⟨"file", filename, c⟩]
          rawBody := ""
          headers := [] } ∧
    (ImagebinUpload env filename).sent =
      some
        { method := "POST"
          url := "https://imagebin.ca/upload.php"
          contentType := "multipart/form-data"
          parts := [⟨"file", filename, c⟩]
          rawBody := ""
          headers := [] } :=
  ⟨uploadFile_sent env filename destURI c hc hfs,
   ImagebinUpload_sent env filename c hc hfs⟩

/-- Environment for the C6 witness. -/
def envC6w : Env :=
  { fs := fun _ => Except.ok "contents"
    createFormFileError := none
    newRequestError := none
    postError := none
    readError := none
    body := ""
    anonDecode := Except.error "decode error"
    filebinDecode := Except.error "unused" }

/-- Witness for claim C6 at a concrete readable file. -/
theorem claim_C6_witness :
    envC6w.createFormFileError = none ∧
    envC6w.fs "pic.png" = Except.ok "contents" ∧
    ((uploadFile envC6w "pic.png" "https://api.bayfiles.com/upload").sent =
      some
        { method := "POST"
          url := "https://api.bayfiles.com/upload"
          contentType := "multipart/form-data"
          parts := [⟨"file", "pic.png", "contents"⟩]
          rawBody := ""
          headers := [] } ∧
     (ImagebinUpload envC6w "pic.png").sent =
      some
        { method := "POST"
          url := "https://imagebin.ca/upload.php"
          contentType := "multipart/form-data"
          parts := [⟨"file", "pic.png", "contents"⟩]
          rawBody := ""
          headers := [] }) :=
  ⟨rfl, rfl,
   claim_C6_multipart_request envC6w "pic.png" "https://api.bayfiles.com/upload"
     "contents" rfl rfl⟩

/-! ### Claim C4: marker scraping of the image-host response -/

/-- A nonempty pattern can only occur at the head of a nonempty list. -/
theorem startsWithL_ne_nil (w v : List Char) (hw : w ≠ [])
    (h : startsWithL w v = true) : v ≠ [] := by
  cases w with
  | nil => exact absurd rfl hw
  | cons a as =>
    cases v with
    | nil => simp [startsWithL] at h
    | cons b bs => simp

/-- `lastIndexFrom` finds nothing when the pattern occurs nowhere up to the
scan bound. -/
theorem lastIndexFrom_eq_none (v w : List Char) (i : ℕ)
    (h : ∀ q, q ≤ i → startsWithL w (v.drop q) = false) :
    lastIndexFrom v w i = none := by
  induction i with
  | zero =>
    have h0 := h 0 (Nat.le_refl 0)
    rw [List.drop_zero] at h0
    simp [lastIndexFrom, h0]
  | succ n ih =>
    have hn : startsWithL w (v.drop (n + 1)) = false := h (n + 1) (Nat.le_refl _)
    simp only [lastIndexFrom, hn, Bool.false_eq_true, if_false]
    exact ih fun q hq => h q (Nat.le_succ_of_le hq)

/-- `lastIndexFrom` returns exactly the last position at which the pattern
occurs within the scan bound. -/
theorem lastIndexFrom_eq_some (v w : List Char) (i p : ℕ)
    (hpi : p ≤ i) (hocc : startsWithL w (v.drop p) = true)
    (hlast : ∀ q, q ≤ i → p < q → startsWithL w (v.drop q) = false) :
    lastIndexFrom v w i = some p := by
  induction i with
  | zero =>
    have hp0 : p = 0 := Nat.le_zero.mp hpi
    subst hp0
    rw [List.drop_zero] at hocc
    simp [lastIndexFrom, hocc]
  | succ n ih =>
    rcases Nat.lt_or_ge p (n + 1) with hlt | hge
    · have hn : startsWithL w (v.drop (n + 1)) = false :=
        hlast (n + 1) (Nat.le_refl _) hlt
      simp only [lastIndexFrom, hn, Bool.false_eq_true, if_false]
      exact ih (Nat.lt_succ_iff.mp hlt)
        fun q hq hpq => hlast q (Nat.le_succ_of_le hq) hpq
    · have hp : p = n + 1 := Nat.le_antisymm hpi hge
      subst hp
      simp [lastIndexFrom, hocc]

/-- `getStringAfterWord` returns everything after the last occurrence of a
nonempty marker (the empty string when the occurrence ends the text). -/
theorem getStringAfterWord_last (v w : String) (p : ℕ)
    (hw : w.toList ≠ [])
    (hocc : startsWithL w.toList (v.toList.drop p) = true)
    (hlast : ∀ q, q ≤ v.toList.length → p < q →
      startsWithL w.toList (v.toList.drop q) = false) :
    getStringAfterWord v w = String.mk (v.toList.drop (p + w.toList.length)) := by
  have hvne : v.toList.drop p ≠ [] := startsWithL_ne_nil _ _ hw hocc
  have hplt : p < v.toList.length := by
    by_contra hge
    exact hvne (List.drop_eq_nil_iff.mpr (Nat.le_of_not_lt hge))
  have hidx : stringsLastIndex v.toList w.toList = some p :=
    lastIndexFrom_eq_some _ _ _ _ (Nat.le_of_lt hplt) hocc hlast
  unfold getStringAfterWord
  rw [hidx]
  show (if v.toList.length ≤ p + w.toList.length then ""
      else String.mk (v.toList.drop (p + w.toList.length))) =
    String.mk (v.toList.drop (p + w.toList.length))
  by_cases hend : v.toList.length ≤ p + w.toList.length
  · rw [if_pos hend, List.drop_eq_nil_iff.mpr hend]
  · rw [if_neg hend]

/-- `getStringAfterWord` returns the empty string when the marker does not
occur in the text. -/
theorem getStringAfterWord_absent (v w : String)
    (h : ∀ q, q ≤ v.toList.length →
      startsWithL w.toList (v.toList.drop q) = false) :
    getStringAfterWord v w = "" := by
  have hidx : stringsLastIndex v.toList w.toList = none :=
    lastIndexFrom_eq_none _ _ _ fun q hq => h q hq
  unfold getStringAfterWord
  rw [hidx]

/-- When the scraped URL is empty, `ImagebinUpload` returns Status = false,
FullURL = "" and a nil error. -/
theorem ImagebinUpload_no_url (env : Env) (f : String)
    (hc : env.createFormFileError = none) (hp : env.postError = none)
    (hr : env.readError = none)
    (hb : getStringAfterWord env.body "url:" = "") :
    (ImagebinUpload env f).result = GoResult.ret ⟨false, "", ""⟩ none := by
  simp [ImagebinUpload, hc, hp, hr, hb]

/-- Claim C4: the image-host URL extraction returns the substring after the
last occurrence of the marker (position p being the last occurrence); when
the marker is absent the extraction returns the empty string (and when the
marker ends the text, the dropped suffix is empty, so the first part also
yields the empty string); and when the extraction is empty, ImagebinUpload
returns Status = false with FullURL = "" and a nil error. -/
theorem claim_C4_marker_extraction :
    (∀ (v w : String) (p : ℕ), w.toList ≠ [] →
      startsWithL w.toList (v.toList.drop p) = true →
      (∀ q, q ≤ v.toList.length → p < q →
        startsWithL w.toList (v.toList.drop q) = false) →
      getStringAfterWord v w = String.mk (v.toList.drop (p + w.toList.length))) ∧
    (∀ v w : String,
      (∀ q, q ≤ v.toList.length →
        startsWithL w.toList (v.toList.drop q) = false) →
      getStringAfterWord v w = "") ∧
    (∀ env f, env.createFormFileError = none → env.postError = none →
      env.readError = none → getStringAfterWord env.body "url:" = "" →
      (ImagebinUpload env f).result = GoResult.ret ⟨false, "", ""⟩ none) :=
  ⟨fun v w p hw hocc hlast => getStringAfterWord_last v w p hw hocc hlast,
   fun v w h => getStringAfterWord_absent v w h,
   fun env f hc hp hr hb => ImagebinUpload_no_url env f hc hp hr hb⟩

/-- Environment for the C4 witness: the response body holds no "url:"
marker. -/
def envC4w : Env :=
  { fs := fun _ => Except.ok "data"
    createFormFileError := none
    newRequestError := none
    postError := none
    readError := none
    body := "upload accepted"
    anonDecode := Except.error "unused"
    filebinDecode := Except.error "unused" }

/-- Witness for claim C4: last-occurrence extraction on a text with two
markers, empty extraction on a marker-free text, and the resulting
Status = false outcome of ImagebinUpload. -/
theorem claim_C4_witness :
    ("url:".toList ≠ []) ∧
    startsWithL "url:".toList ("a url:x url:y".toList.drop 8) = true ∧
    (∀ q, q ≤ "a url:x url:y".toList.length → 8 < q →
      startsWithL "url:".toList ("a url:x url:y".toList.drop q) = false) ∧
    getStringAfterWord "a url:x url:y" "url:" =
      String.mk ("a url:x url:y".toList.drop (8 + "url:".toList.length)) ∧
    getStringAfterWord "a url:x url:y" "url:" = "y" ∧
    (∀ q, q ≤ "upload accepted".toList.length →
      startsWithL "url:".toList ("upload accepted".toList.drop q) = false) ∧
    getStringAfterWord "upload accepted" "url:" = "" ∧
    (ImagebinUpload envC4w "f.txt").result = GoResult.ret ⟨false, "", ""⟩ none :=
  ⟨by decide, by decide, by decide,
   claim_C4_marker_extraction.1 "a url:x url:y" "url:" 8 (by decide) (by decide)
     (by decide),
   by decide,
   by decide,
   claim_C4_marker_extraction.2.1 "upload accepted" "url:" (by decide),
   claim_C4_marker_extraction.2.2 envC4w "f.txt" rfl rfl rfl (by decide)⟩

/-! ### Claim C7: the rounding helper -/

/-- Standard round-half-up at `p` decimal places, stated from the spec's
words: scale by 10^p, add one half, floor, rescale. -/
def roundHalfUp (v : ℚ) (p : ℕ) : ℚ :=
  ((⌊(10 : ℚ) ^ p * v + 1 / 2⌋ : ℤ) : ℚ) / 10 ^ p

/-- The ceiling-or-floor step of `round` at threshold one half agrees with
flooring after adding one half, for any scaled value. -/
theorem floor_add_half (x : ℚ) :
    ((if 1 / 2 ≤ Int.fract x then ⌈x⌉ else ⌊x⌋) : ℤ) = ⌊x + 1 / 2⌋ := by
  have hfr0 : 0 ≤ Int.fract x := Int.fract_nonneg x
  have hfr1 : Int.fract x < 1 := Int.fract_lt_one x
  have hsum := Int.floor_add_fract x
  by_cases h : (1 : ℚ) / 2 ≤ Int.fract x
  · rw [if_pos h]
    have hceil : ⌈x⌉ = ⌊x⌋ + 1 := by
      rw [Int.ceil_eq_iff]
      constructor
      · push_cast
        linarith
      · push_cast
        linarith
    have hfloor : ⌊x + 1 / 2⌋ = ⌊x⌋ + 1 := by
      rw [Int.floor_eq_iff]
      constructor
      · push_cast
        linarith
      · push_cast
        linarith
    rw [hceil, hfloor]
  · rw [if_neg h]
    push_neg at h
    have hfloor : ⌊x + 1 / 2⌋ = ⌊x⌋ := by
      rw [Int.floor_eq_iff]
      constructor
      · linarith
      · linarith
    rw [hfloor]

/-- For nonnegative values the Modf fractional part is `Int.fract`, and
`round` at threshold one half is exactly round-half-up. -/
theorem round_nonneg_eq (v : ℚ) (hv : 0 ≤ v) (p : ℕ) :
    round v (1 / 2) p = ((⌊(10 : ℚ) ^ p * v + 1 / 2⌋ : ℤ) : ℚ) / 10 ^ p := by
  have hd : (0 : ℚ) ≤ 10 ^ p * v := by positivity
  have hmodf : (goModf ((10 : ℚ) ^ p * v)).2 = Int.fract ((10 : ℚ) ^ p * v) := by
    simp only [goModf]
    rw [if_pos hd]
    exact Int.self_sub_floor _
  simp only [round]
  rw [hmodf, floor_add_half]

/-- Claim C7 counterexample: at value -9/4 (the exactly representable
-2.25) with threshold 0.5 and zero places, `round` yields -3, while
standard round-half-up yields -2: the Modf fractional part of a negative
value is nonpositive, so the threshold branch always floors. -/
theorem claim_C7_counterexample :
    round (-9 / 4 : ℚ) (1 / 2) 0 = -3 ∧ roundHalfUp (-9 / 4 : ℚ) 0 = -2 ∧
      ((-3 : ℚ) ≠ -2) := by
  have hfl : ⌊(-9 / 4 : ℚ)⌋ = -3 := by
    rw [Int.floor_eq_iff]
    constructor <;> norm_num
  have hcl : ⌈(-9 / 4 : ℚ)⌉ = -2 := by
    rw [Int.ceil_eq_iff]
    constructor <;> norm_num
  have hfl2 : ⌊(-9 / 4 : ℚ) + 1 / 2⌋ = -2 := by
    rw [Int.floor_eq_iff]
    constructor <;> norm_num
  refine ⟨?_, ?_, by norm_num⟩
  · simp only [round, goModf]
    rw [show ((10 : ℚ) ^ 0 * (-9 / 4)) = -9 / 4 by norm_num]
    split_ifs with h1 h2 h3
    · exact absurd h1 (by norm_num)
    · exact absurd h1 (by norm_num)
    · rw [hcl] at h3
      push_cast at h3
      linarith
    · rw [hfl]
      norm_num
  · simp only [roundHalfUp]
    rw [show ((10 : ℚ) ^ 0 * (-9 / 4) + 1 / 2) = -9 / 4 + 1 / 2 by norm_num]
    rw [hfl2]
    norm_num

/-- Claim C7 (amended): for every nonnegative value v and place count p,
`round` with threshold 0.5 returns v rounded to p decimal places by
standard round-half-up (scale by 10^p, take the fractional part, ceiling
when it is at least 0.5 and floor otherwise, rescale). -/
theorem claim_C7_round_half_up (v : ℚ) (hv : 0 ≤ v) (p : ℕ) :
    round v (1 / 2) p = roundHalfUp v p :=
  round_nonneg_eq v hv p

/-- Witness for claim C7 at the exactly representable value 1.125 = 9/8
with two places: both sides evaluate to 1.13 = 113/100. -/
theorem claim_C7_witness :
    (0 : ℚ) ≤ 9 / 8 ∧ round (9 / 8 : ℚ) (1 / 2) 2 = roundHalfUp (9 / 8 : ℚ) 2 ∧
      roundHalfUp (9 / 8 : ℚ) 2 = 113 / 100 :=
  ⟨by norm_num, claim_C7_round_half_up (9 / 8) (by norm_num) 2, by
    have hfl : ⌊(10 : ℚ) ^ 2 * (9 / 8) + 1 / 2⌋ = 113 := by
      rw [Int.floor_eq_iff]
      constructor <;> norm_num
    simp only [roundHalfUp]
    rw [hfl]
    norm_num⟩

/-! ### Claims C5 and C8: the size formatter and CheckFile -/

/-- Rounding to two places moves a nonnegative value by at most 1/100. -/
theorem abs_round2_sub (x : ℚ) (hx : 0 ≤ x) :
    |round x (1 / 2) 2 - x| ≤ 1 / 100 := by
  rw [round_nonneg_eq x hx 2]
  have h1 : ((10 : ℚ) ^ 2) = 100 := by norm_num
  rw [h1]
  have hfl : (100 : ℚ) * x - 1 / 2 ≤ (⌊(100 : ℚ) * x + 1 / 2⌋ : ℚ) := by
    have := Int.lt_floor_add_one ((100 : ℚ) * x + 1 / 2)
    linarith
  have hfu : (⌊(100 : ℚ) * x + 1 / 2⌋ : ℚ) ≤ 100 * x + 1 / 2 :=
    Int.floor_le _
  rw [abs_le]
  constructor <;> linarith

/-- Structure of a successful `prettySize` run: for a nonzero byte count
below 1024^4 the unit index is `Nat.log 1024`, the output is the formatted
rounded mantissa with the indexed suffix, and the mantissa scaled back by
the unit differs from the byte count by at most 1024^k/100. -/
theorem prettySize_spec (b : ℕ) (hb : b ≠ 0) (hb4 : b < 1024 ^ 4) :
    Nat.log 1024 b < 4 ∧
    prettySize b = Except.ok
      (formatSize2 (round ((b : ℚ) / 1024 ^ Nat.log 1024 b) (1 / 2) 2) ++ " "
        ++ suffixes.getD (Nat.log 1024 b) "") ∧
    |round ((b : ℚ) / 1024 ^ Nat.log 1024 b) (1 / 2) 2 * 1024 ^ Nat.log 1024 b
      - (b : ℚ)| ≤ (1024 : ℚ) ^ Nat.log 1024 b / 100 := by
  have hk4 : Nat.log 1024 b < 4 := Nat.log_lt_of_lt_pow hb hb4
  refine ⟨hk4, ?_, ?_⟩
  · simp only [prettySize]
    rw [if_neg hb, if_pos hk4]
  · have hpow : (0 : ℚ) < 1024 ^ Nat.log 1024 b := by positivity
    have hx : (0 : ℚ) ≤ (b : ℚ) / 1024 ^ Nat.log 1024 b := by positivity
    have habs := abs_round2_sub ((b : ℚ) / 1024 ^ Nat.log 1024 b) hx
    have hqb : round ((b : ℚ) / 1024 ^ Nat.log 1024 b) (1 / 2) 2 *
        1024 ^ Nat.log 1024 b - (b : ℚ) =
        (round ((b : ℚ) / 1024 ^ Nat.log 1024 b) (1 / 2) 2 -
          (b : ℚ) / 1024 ^ Nat.log 1024 b) * 1024 ^ Nat.log 1024 b := by
      field_simp
    rw [hqb, abs_mul, abs_of_pos hpow]
    calc |round ((b : ℚ) / 1024 ^ Nat.log 1024 b) (1 / 2) 2 -
          (b : ℚ) / 1024 ^ Nat.log 1024 b| * 1024 ^ Nat.log 1024 b
        ≤ (1 / 100) * 1024 ^ Nat.log 1024 b :=
          mul_le_mul_of_nonneg_right habs (le_of_lt hpow)
      _ = (1024 : ℚ) ^ Nat.log 1024 b / 100 := by ring

/-- Claim C5 counterexample: at byte count 0 (inside the claimed range
[0, 1024^4)) the formatter does not produce an output string at all: the
source computes log(0) = -infinity and indexes the suffix table out of
range, a runtime panic, modelled as an error outcome. -/
theorem claim_C5_counterexample :
    prettySize 0 = Except.error "runtime error: index out of range" := rfl

/-- Claim C5 (amended): for every byte count b in [1, 1024^4) the size
formatter output is a rounded mantissa, a space and a unit from
B/KB/MB/GB, where the unit index k satisfies 1024^k ≤ b < 1024^(k+1) and
the mantissa times 1024^k equals b within the 2-decimal-place rounding
precision at that scale (at most 1024^k/100). -/
theorem claim_C5_formatter (b : ℕ) (hb : 1 ≤ b) (hb4 : b < 1024 ^ 4) :
    ∃ k : ℕ, k < 4 ∧
      prettySize b = Except.ok
        (formatSize2 (round ((b : ℚ) / 1024 ^ k) (1 / 2) 2) ++ " "
          ++ suffixes.getD k "") ∧
      (suffixes.getD k "" = "B" ∨ suffixes.getD k "" = "KB" ∨
        suffixes.getD k "" = "MB" ∨ suffixes.getD k "" = "GB") ∧
      1024 ^ k ≤ b ∧ b < 1024 ^ (k + 1) ∧
      |round ((b : ℚ) / 1024 ^ k) (1 / 2) 2 * 1024 ^ k - (b : ℚ)| ≤
        (1024 : ℚ) ^ k / 100 := by
  have hb0 : b ≠ 0 := Nat.one_le_iff_ne_zero.mp hb
  obtain ⟨hk4, hps, habs⟩ := prettySize_spec b hb0 hb4
  refine ⟨Nat.log 1024 b, hk4, hps, ?_, ?_, ?_, habs⟩
  · set k := Nat.log 1024 b with hk
    interval_cases k <;> simp [suffixes]
  · exact Nat.pow_log_le_self 1024 hb0
  · exact Nat.lt_pow_succ_log_self (by norm_num) b

/-- Concrete run of the formatter at 2048 bytes. -/
theorem prettySize_eval_2048 : prettySize 2048 = Except.ok "2 KB" := by
  have hl : Nat.log 1024 2048 = 1 :=
    Nat.log_eq_of_pow_le_of_lt_pow (by norm_num) (by norm_num)
  have hx : ((2048 : ℕ) : ℚ) / 1024 ^ 1 = 2 := by norm_num
  have hr : round (((2048 : ℕ) : ℚ) / 1024 ^ 1) (1 / 2) 2 = 2 := by
    rw [hx, round_nonneg_eq _ (by norm_num) 2]
    have hfl : ⌊(10 : ℚ) ^ 2 * 2 + 1 / 2⌋ = 200 := by
      rw [Int.floor_eq_iff]
      constructor <;> norm_num
    rw [hfl]
    norm_num
  have hfmt : formatSize2 2 = "2" := by
    have hfl : ⌊(2 : ℚ) * 100⌋ = 200 := by
      rw [Int.floor_eq_iff]
      constructor <;> norm_num
    simp only [formatSize2]
    rw [hfl]
    rfl
  simp only [prettySize, hl]
  rw [if_neg (by norm_num : ¬(2048 = 0)), if_pos (by norm_num : (1 : ℕ) < 4),
    hr, hfmt]
  rfl

/-- Witness for claim C5 at 2048 bytes: the formatter reports "2 KB". -/
theorem claim_C5_witness :
    1 ≤ 2048 ∧ 2048 < 1024 ^ 4 ∧
      (∃ k : ℕ, k < 4 ∧
        prettySize 2048 = Except.ok
          (formatSize2 (round (((2048 : ℕ) : ℚ) / 1024 ^ k) (1 / 2) 2) ++ " "
            ++ suffixes.getD k "") ∧
        (suffixes.getD k "" = "B" ∨ suffixes.getD k "" = "KB" ∨
          suffixes.getD k "" = "MB" ∨ suffixes.getD k "" = "GB") ∧
        1024 ^ k ≤ 2048 ∧ 2048 < 1024 ^ (k + 1) ∧
        |round (((2048 : ℕ) : ℚ) / 1024 ^ k) (1 / 2) 2 * 1024 ^ k -
          ((2048 : ℕ) : ℚ)| ≤ (1024 : ℚ) ^ k / 100) ∧
      prettySize 2048 = Except.ok "2 KB" :=
  ⟨by norm_num, by norm_num,
   claim_C5_formatter 2048 (by norm_num) (by norm_num), prettySize_eval_2048⟩

/-- Claim C8 counterexample: an existing file of size 0 makes CheckFile
panic (suffix-table index out of range) instead of returning a size string
or a NotFound error. -/
theorem claim_C8_counterexample :
    CheckFile (fun _ => Except.ok 0) "empty.txt" =
      GoResult.panic "runtime error: index out of range" := rfl

/-- Claim C8 (amended): CheckFile returns ("", stat error) when the path
cannot be stat'ed, and the human-readable size string (rounded mantissa, a
space, a unit suffix) when the stat'ed size lies in [1, 1024^4); for sizes
0 or at least 1024^4 the suffix-table index is out of range and the call
panics instead. -/
theorem claim_C8_check_file :
    (∀ (stat : String → Except GoError ℕ) f e, stat f = Except.error e →
      CheckFile stat f = GoResult.ret "" (some e)) ∧
    (∀ (stat : String → Except GoError ℕ) f n, stat f = Except.ok n →
      1 ≤ n → n < 1024 ^ 4 →
      ∃ k : ℕ, k < 4 ∧
        CheckFile stat f = GoResult.ret
          (formatSize2 (round ((n : ℚ) / 1024 ^ k) (1 / 2) 2) ++ " "
            ++ suffixes.getD k "") none) := by
  constructor
  · intro stat f e h
    simp [CheckFile, h]
  · intro stat f n h hn hn4
    have hb0 : n ≠ 0 := Nat.one_le_iff_ne_zero.mp hn
    obtain ⟨hk4, hps, _⟩ := prettySize_spec n hb0 hn4
    exact ⟨Nat.log 1024 n, hk4, by simp [CheckFile, h, hps]⟩

/-- Stat function for the C8 witness: one existing 1536-byte file. -/
def statC8 : String → Except GoError ℕ := fun s =>
  if s = "report.pdf" then Except.ok 1536 else Except.error "stat: no such file"

/-- Concrete run of the formatter at 1536 bytes. -/
theorem prettySize_eval_1536 : prettySize 1536 = Except.ok "1.5 KB" := by
  have hl : Nat.log 1024 1536 = 1 :=
    Nat.log_eq_of_pow_le_of_lt_pow (by norm_num) (by norm_num)
  have hx : ((1536 : ℕ) : ℚ) / 1024 ^ 1 = 3 / 2 := by norm_num
  have hr : round (((1536 : ℕ) : ℚ) / 1024 ^ 1) (1 / 2) 2 = 3 / 2 := by
    rw [hx, round_nonneg_eq _ (by norm_num) 2]
    have hfl : ⌊(10 : ℚ) ^ 2 * (3 / 2) + 1 / 2⌋ = 150 := by
      rw [Int.floor_eq_iff]
      constructor <;> norm_num
    rw [hfl]
    norm_num
  have hfmt : formatSize2 (3 / 2) = "1.5" := by
    have hfl : ⌊(3 / 2 : ℚ) * 100⌋ = 150 := by
      rw [Int.floor_eq_iff]
      constructor <;> norm_num
    simp only [formatSize2]
    rw [hfl]
    rfl
  simp only [prettySize, hl]
  rw [if_neg (by norm_num : ¬(1536 = 0)), if_pos (by norm_num : (1 : ℕ) < 4),
    hr, hfmt]
  rfl

/-- Concrete run of CheckFile on the existing 1536-byte file. -/
theorem CheckFile_eval_report :
    CheckFile statC8 "report.pdf" = GoResult.ret "1.5 KB" none := by
  simp [CheckFile, statC8, prettySize_eval_1536]

/-- Witness for claim C8: a missing path yields ("", stat error) and an
existing 1536-byte file yields a size string ("1.5 KB"). -/
theorem claim_C8_witness :
    (statC8 "gone.txt" = Except.error "stat: no such file" ∧
      CheckFile statC8 "gone.txt" = GoResult.ret "" (some "stat: no such file")) ∧
    (statC8 "report.pdf" = Except.ok 1536 ∧ 1 ≤ 1536 ∧ 1536 < 1024 ^ 4 ∧
      (∃ k : ℕ, k < 4 ∧
        CheckFile statC8 "report.pdf" = GoResult.ret
          (formatSize2 (round (((1536 : ℕ) : ℚ) / 1024 ^ k) (1 / 2) 2) ++ " "
            ++ suffixes.getD k "") none) ∧
      CheckFile statC8 "report.pdf" = GoResult.ret "1.5 KB" none) :=
  ⟨⟨rfl, claim_C8_check_file.1 statC8 "gone.txt" "stat: no such file" rfl⟩,
   ⟨rfl, by norm_num, by norm_num,
    claim_C8_check_file.2 statC8 "report.pdf" 1536 rfl (by norm_num) (by norm_num),
    CheckFile_eval_report⟩⟩

end Particeps
